import Mathlib

set_option autoImplicit false

/-!
Shallow embedding of `cc-switch-usb-rs` (`src/main.rs`): a host-side USB
bridge between a Nintendo Switch and a set of `cold_clear` engine
instances.  The embedding covers the transport primitives
(`read_all`/`write_all`), the length-prefixed framing, USB device
acquisition (`SwitchConnection::try_connect`), and the command dispatcher
of `main`.  External effects (the USB bus, the engine library) are
modelled as explicit inputs: a script of underlying transfer results for
the transport, a device list for acquisition, and opaque function
parameters for the engine calls.
-/

/-- The error type of the `rusb` crate (`rusb::Error`), as matched by the
source: `Timeout` is singled out by `read_all`/`write_all`; every other
variant is a hard error. -/
inductive RusbError where
  | ioErr
  | invalidParam
  | access
  | noDevice
  | notFound
  | busy
  | timeout
  | overflow
  | pipe
  | interrupted
  | noMem
  | notSupported
  | badDescriptor
  | other
deriving DecidableEq, Repr

/-- Result of one underlying bulk-transfer attempt (`SwitchConnection::read`
or `SwitchConnection::write`): a byte count, or a `rusb` error. -/
abbrev UsbResult := Except RusbError Nat

/-- `SwitchConnection::read_all` (main.rs:176-186), with the USB bus
modelled as the list of results the underlying `read` calls would return.
`read` is the running byte count; the loop runs while `read < len`.  A
timeout retries with no progress; any other error aborts with the
cumulative count; `none` models the loop still blocked on the bus when the
script runs out. -/
def readAll (len : Nat) : Nat → List UsbResult → Option (Except (Nat × RusbError) Nat)
  | read, [] => if read < len then none else some (Except.ok read)
  | read, a :: rest =>
    if read < len then
      match a with
      | Except.ok bytes => readAll len (read + bytes) rest
      | Except.error e =>
        if e = RusbError.timeout then readAll len read rest
        else some (Except.error (read, e))
    else some (Except.ok read)

/-- `SwitchConnection::write_all` (main.rs:191-201); textually the same
loop as `read_all` with `written` in place of `read`. -/
def writeAll (len : Nat) : Nat → List UsbResult → Option (Except (Nat × RusbError) Nat)
  | written, [] => if written < len then none else some (Except.ok written)
  | written, a :: rest =>
    if written < len then
      match a with
      | Except.ok bytes => writeAll len (written + bytes) rest
      | Except.error e =>
        if e = RusbError.timeout then writeAll len written rest
        else some (Except.error (written, e))
    else some (Except.ok written)

/-- Total bytes carried by the successful attempts of a script. -/
def sumOk : List UsbResult → Nat
  | [] => 0
  | Except.ok b :: rest => b + sumOk rest
  | Except.error _ :: rest => sumOk rest

/-- An attempt that the retry loop absorbs: a successful transfer or a
timeout. -/
def okOrTimeout : UsbResult → Bool
  | Except.ok _ => true
  | Except.error e => e == RusbError.timeout

/-- Well-formedness of a transfer script: each successful attempt moves at
most the bytes still missing, which is what `rusb` guarantees because the
code passes the slice `buf[read..]` of exactly that length. -/
def attemptsBounded (len : Nat) : Nat → List UsbResult → Bool
  | _, [] => true
  | read, a :: rest =>
    if read < len then
      match a with
      | Except.ok bytes => decide (bytes ≤ len - read) && attemptsBounded len (read + bytes) rest
      | Except.error _ => attemptsBounded len read rest
    else true

/-- `u32::from_le_bytes` on four bytes. -/
def u32FromLeBytes (b0 b1 b2 b3 : Nat) : Nat :=
  b0 + b1 * 256 + b2 * 65536 + b3 * 16777216

/-- The little-endian four-byte encoding of `n` (what the host sends as a
request length prefix). -/
def u32ToLeBytes (n : Nat) : List Nat :=
  [n % 256, n / 256 % 256, n / 65536 % 256, n / 16777216 % 256]

/-- `u32::to_be_bytes`: the big-endian four-byte encoding of `n`. -/
def u32ToBeBytes (n : Nat) : List Nat :=
  [n / 16777216 % 256, n / 65536 % 256, n / 256 % 256, n % 256]

/-- Big-endian decoding of four bytes. -/
def u32FromBeBytes (b0 b1 b2 b3 : Nat) : Nat :=
  b3 + b2 * 256 + b1 * 65536 + b0 * 16777216

/-- The framing half of `command` (main.rs:36-41): read four bytes, decode
them little-endian, then read exactly that many payload bytes.  The input
is the incoming byte stream; the result is the payload together with the
unconsumed remainder of the stream, or `none` when the stream does not yet
hold a whole frame (`read_all` would still be blocked). -/
def readFrame (stream : List Nat) : Option (List Nat × List Nat) :=
  match stream with
  | b0 :: b1 :: b2 :: b3 :: rest =>
    if u32FromLeBytes b0 b1 b2 b3 ≤ rest.length then
      some (rest.take (u32FromLeBytes b0 b1 b2 b3), rest.drop (u32FromLeBytes b0 b1 b2 b3))
    else none
  | _ => none

/-- The framing half of `result` (main.rs:43-47): emit
`(buf.len() as u32).to_be_bytes()` followed by the payload bytes.  The
`% 4294967296` mirrors the `as u32` cast. -/
def writeFrame (payload : List Nat) : List Nat :=
  u32ToBeBytes (payload.length % 4294967296) ++ payload

/-- `rusb::TransferType`. -/
inductive TransferType where
  | control
  | isochronous
  | bulk
  | interrupt
deriving DecidableEq, Repr

/-- `rusb::Direction`. -/
inductive Direction where
  | dIn
  | dOut
deriving DecidableEq, Repr

/-- One endpoint descriptor, with the three fields `try_connect` reads. -/
structure EndpointDesc where
  transfer_type : TransferType
  direction : Direction
  address : Nat
deriving DecidableEq, Repr

/-- `SwitchConnectionError` (main.rs:96-104). -/
inductive SwitchConnectionError where
  | switchNotFound
  | noInterface
  | noInterfaceDescriptor
  | noInEndpoint
  | noOutEndpoint
  | rusbError (e : RusbError)
deriving DecidableEq, Repr

/-- The endpoints of a `SwitchConnection` (main.rs:112-116); the opaque
device handle is not represented. -/
structure SwitchConnection where
  endpoint_in : Nat
  endpoint_out : Nat
deriving DecidableEq, Repr

/-- One iteration of the endpoint loop of `try_connect`
(main.rs:133-147): record the address of the first bulk endpoint seen in
each direction. -/
def scanStep (ein eout : Option Nat) (e : EndpointDesc) : Option Nat × Option Nat :=
  if e.transfer_type = TransferType.bulk then
    match e.direction with
    | Direction.dIn => (if ein.isNone then some e.address else ein, eout)
    | Direction.dOut => (ein, if eout.isNone then some e.address else eout)
  else (ein, eout)

/-- The endpoint loop of `try_connect` (main.rs:133-161): after each
endpoint, if both directions have been found return them at once (the code
then claims the interface and returns the `Connection`); if the loop
finishes with a direction missing, fail with `NoInEndpoint` when no
bulk-in endpoint was seen, else `NoOutEndpoint`. -/
def scanEndpoints : Option Nat → Option Nat → List EndpointDesc → Except SwitchConnectionError (Nat × Nat)
  | ein, _, [] =>
    Except.error (if ein.isNone then SwitchConnectionError.noInEndpoint else SwitchConnectionError.noOutEndpoint)
  | ein, eout, e :: es =>
    match scanStep ein eout e with
    | (some a, some b) => Except.ok (a, b)
    | (ein', eout') => scanEndpoints ein' eout' es

/-- The address of the first bulk endpoint of direction `d` in a
descriptor list. -/
def firstBulkAddr (d : Direction) (eps : List EndpointDesc) : Option Nat :=
  (eps.find? fun e => decide (e.transfer_type = TransferType.bulk ∧ e.direction = d)).map EndpointDesc.address

/-- A `rusb` device descriptor, restricted to the two fields read. -/
structure DeviceDesc where
  vendor_id : Nat
  product_id : Nat
deriving DecidableEq, Repr

/-- An interface descriptor: its endpoint descriptors. -/
structure InterfaceDescriptor where
  endpoint_descriptors : List EndpointDesc
deriving DecidableEq, Repr

/-- A USB interface: its number and its descriptors. -/
structure UsbInterface where
  number : Nat
  descriptors : List InterfaceDescriptor
deriving DecidableEq, Repr

/-- An active configuration descriptor: its interfaces. -/
structure ConfigDescriptor where
  interfaces : List UsbInterface
deriving DecidableEq, Repr

/-- Decidable equality for `Except`, used to evaluate the acquisition
model on concrete device lists. -/
instance {ε α : Type} [DecidableEq ε] [DecidableEq α] : DecidableEq (Except ε α) := fun x y =>
  match x, y with
  | Except.ok a, Except.ok b =>
    if h : a = b then isTrue (congrArg Except.ok h)
    else isFalse (fun hc => h (Except.ok.inj hc))
  | Except.error a, Except.error b =>
    if h : a = b then isTrue (congrArg Except.error h)
    else isFalse (fun hc => h (Except.error.inj hc))
  | Except.ok _, Except.error _ => isFalse (fun hc => Except.noConfusion hc)
  | Except.error _, Except.ok _ => isFalse (fun hc => Except.noConfusion hc)

/-- An opened device, modelled by the outcomes the bus would give the
three calls `try_connect` makes on it. -/
structure OpenedDevice where
  set_config_result : Except RusbError Unit
  active_config_result : Except RusbError ConfigDescriptor
  claim_result : Except RusbError Unit
deriving DecidableEq, Repr

/-- One enumerated device: the outcome of querying its descriptor, and of
opening it. -/
structure UsbDevice where
  device_descriptor : Except RusbError DeviceDesc
  open_result : Except RusbError OpenedDevice
deriving DecidableEq, Repr

/-- `SwitchConnection::SWITCH_VENDOR_ID` (main.rs:119). -/
def SWITCH_VENDOR_ID : Nat := 0x057E

/-- `SwitchConnection::SWITCH_PRODUCT_ID` (main.rs:120). -/
def SWITCH_PRODUCT_ID : Nat := 0x3000

/-- `SwitchConnection::try_connect` (main.rs:121-171) over an explicit
device enumeration: find the first device matching the Switch identity,
open it, select configuration 1, take the first interface's first
descriptor, and scan its endpoints; propagate `rusb` errors, and return
`SwitchNotFound` when no device matches. -/
def tryConnect : List UsbDevice → Except SwitchConnectionError SwitchConnection
  | [] => Except.error SwitchConnectionError.switchNotFound
  | d :: ds =>
    match d.device_descriptor with
    | Except.error e => Except.error (SwitchConnectionError.rusbError e)
    | Except.ok dd =>
      if dd.vendor_id = SWITCH_VENDOR_ID ∧ dd.product_id = SWITCH_PRODUCT_ID then
        match d.open_result with
        | Except.error e => Except.error (SwitchConnectionError.rusbError e)
        | Except.ok h =>
          match h.set_config_result with
          | Except.error e => Except.error (SwitchConnectionError.rusbError e)
          | Except.ok _ =>
            match h.active_config_result with
            | Except.error e => Except.error (SwitchConnectionError.rusbError e)
            | Except.ok cfg =>
              match cfg.interfaces with
              | [] => Except.error SwitchConnectionError.noInterface
              | intf :: _ =>
                match intf.descriptors with
                | [] => Except.error SwitchConnectionError.noInterfaceDescriptor
                | idesc :: _ =>
                  match scanEndpoints none none idesc.endpoint_descriptors with
                  | Except.ok (a, b) =>
                    match h.claim_result with
                    | Except.error e => Except.error (SwitchConnectionError.rusbError e)
                    | Except.ok _ => Except.ok ⟨a, b⟩
                  | Except.error e => Except.error e
      else tryConnect ds

/-- A device whose descriptor query succeeds and does not match the Switch
identity. -/
def descOkNonMatching (d : UsbDevice) : Bool :=
  match d.device_descriptor with
  | Except.ok dd => !(dd.vendor_id == SWITCH_VENDOR_ID && dd.product_id == SWITCH_PRODUCT_ID)
  | Except.error _ => false

/-- Opaque external type `cold_clear::Options`, modelled as a code. -/
abbrev CcOptions := Nat

/-- Opaque external type `cold_clear::evaluation::Standard`. -/
abbrev CcEvaluator := Nat

/-- Opaque external type `libtetris::Piece`. -/
abbrev Piece := Nat

/-- Opaque external move value returned by the engine. -/
abbrev Move := Nat

/-- An engine instance (`cold_clear::Interface`), recorded by the
arguments it was launched with (the board argument is always the fresh
`Board::new()`). -/
structure Interface where
  options : CcOptions
  evaluator : CcEvaluator
deriving DecidableEq, Repr

/-- The request `Command` enum (main.rs:6-32). -/
inductive Command where
  | launch (options : CcOptions) (evaluator : CcEvaluator)
  | drop (handle : Nat)
  | requestNextMove (handle : Nat) (incoming : Nat)
  | pollNextMove (handle : Nat)
  | blockNextMove (handle : Nat)
  | addNextPiece (handle : Nat) (piece : Piece)
  | defaultOptions
  | defaultEvaluator
deriving DecidableEq, Repr

/-- The values the dispatcher serializes as response frames. -/
inductive Response where
  | handle (h : Nat)
  | pollResult (m : Option Move)
  | move (m : Move)
  | optionsVal (o : CcOptions)
  | evaluatorVal (e : CcEvaluator)
deriving DecidableEq, Repr

/-- `HashMap::get` on the handle table, modelled as an association list
with unique keys. -/
def hmGet (k : Nat) : List (Nat × Interface) → Option Interface
  | [] => none
  | (k', v) :: rest => if k' = k then some v else hmGet k rest

/-- `HashMap::insert`: replace the entry of an existing key, else append. -/
def hmInsert (k : Nat) (v : Interface) : List (Nat × Interface) → List (Nat × Interface)
  | [] => [(k, v)]
  | (k', v') :: rest => if k' = k then (k, v) :: rest else (k', v') :: hmInsert k v rest

/-- `HashMap::remove`: delete the entry of the key, if present. -/
def hmRemove (k : Nat) : List (Nat × Interface) → List (Nat × Interface)
  | [] => []
  | (k', v') :: rest => if k' = k then rest else (k', v') :: hmRemove k rest

/-- The mutable state of one session of the dispatcher loop
(main.rs:52-53): the handle counter and the handle table. -/
structure SessionState where
  handle_counter : Nat
  handles : List (Nat × Interface)
deriving DecidableEq, Repr

/-- The state installed on entering a session (main.rs:52-53):
`handle_counter = 0`, empty table. -/
def initState : SessionState := ⟨0, []⟩

/-- Execution of one decoded command by the dispatcher (main.rs:55-84).
`poll` and `block` stand for the opaque engine calls `poll_next_move` and
`block_next_move`.  The result is the new state and the response value to
be written (if any); `none` models the panic of the `unwrap` on an absent
handle.  The `% 4294967296` is `u32::wrapping_add`. -/
def execCommand (poll : Interface → Option Move) (block : Interface → Move)
    (st : SessionState) : Command → Option (SessionState × Option Response)
  | Command.launch o e =>
    let c := (st.handle_counter + 1) % 4294967296
    some ({ handle_counter := c, handles := hmInsert c ⟨o, e⟩ st.handles },
      some (Response.handle c))
  | Command.drop h =>
    some ({ st with handles := hmRemove h st.handles }, none)
  | Command.requestNextMove h _ =>
    (hmGet h st.handles).map (fun _ => (st, none))
  | Command.pollNextMove h =>
    (hmGet h st.handles).map (fun i => (st, some (Response.pollResult (poll i))))
  | Command.blockNextMove h =>
    (hmGet h st.handles).map (fun i => (st, some (Response.move (block i))))
  | Command.addNextPiece h _ =>
    (hmGet h st.handles).map (fun _ => (st, none))
  | Command.defaultOptions =>
    some (st, some (Response.optionsVal 0))
  | Command.defaultEvaluator =>
    some (st, some (Response.evaluatorVal 0))

/-- What one iteration of the inner loop observes on the wire: a request
frame that decoded to a command (`writeOk` is whether writing a response
frame, were one needed, would succeed), a non-timeout I/O error during the
frame read, or a payload `serde_cbor` fails to decode. -/
inductive FrameEvent where
  | req (c : Command) (writeOk : Bool)
  | readErr
  | malformed
deriving DecidableEq, Repr

/-- How the inner loop of `main` (main.rs:54-85) ends: `panicked` when an
`unwrap` fired (which aborts the whole process), `running st` when the
event script is exhausted with the loop still alive in state `st`.  The
loop has no other exit. -/
inductive LoopResult where
  | panicked
  | running (st : SessionState)
deriving DecidableEq, Repr

/-- The inner request loop of `main` (main.rs:54-85) over a script of
frame events.  Returns how the loop ends together with the list of
response frames successfully written.  A read error or malformed payload
panics (`unwrap` in `command`, main.rs:37-41); a failed response write
panics (`unwrap` in `result`, main.rs:45-46); an absent handle panics
(`unwrap` at main.rs:67-76). -/
def runSession (poll : Interface → Option Move) (block : Interface → Move) :
    SessionState → List FrameEvent → LoopResult × List Response
  | st, [] => (LoopResult.running st, [])
  | _, FrameEvent.readErr :: _ => (LoopResult.panicked, [])
  | _, FrameEvent.malformed :: _ => (LoopResult.panicked, [])
  | st, FrameEvent.req c w :: fs =>
    match execCommand poll block st c with
    | none => (LoopResult.panicked, [])
    | some (st', none) => runSession poll block st' fs
    | some (st', some r) =>
      if w then
        match runSession poll block st' fs with
        | (res, outs) => (res, r :: outs)
      else (LoopResult.panicked, [])

/-- One iteration of the outer loop of `main` (main.rs:48-93):
`try_connect` fails, or succeeds with the given script of frame events for
the session. -/
inductive SessionEvent where
  | connectErr
  | connectOk (frames : List FrameEvent)
deriving DecidableEq, Repr

/-- Observable outcome of the process on a finite script, counting the
five-second delays performed so far: `panicked` (the process aborted),
`disconnected` (script exhausted between connection attempts), or
`inSession` (script exhausted inside a live inner loop). -/
inductive ProcOutcome where
  | panicked (delays : Nat)
  | disconnected (delays : Nat)
  | inSession (delays : Nat)
deriving DecidableEq, Repr

/-- The outer loop of `main` (main.rs:48-93).  A failed `try_connect`
prints, sleeps five seconds (counted in `delays`) and retries.  A
successful one enters the inner loop with fresh state; that loop only ends
by panicking (killing the process — later events are never reached) or by
running out of script while connected. -/
def runProcess (poll : Interface → Option Move) (block : Interface → Move) :
    List SessionEvent → Nat → ProcOutcome
  | [], delays => ProcOutcome.disconnected delays
  | SessionEvent.connectErr :: rest, delays => runProcess poll block rest (delays + 1)
  | SessionEvent.connectOk frames :: _, delays =>
    match runSession poll block initState frames with
    | (LoopResult.panicked, _) => ProcOutcome.panicked delays
    | (LoopResult.running _, _) => ProcOutcome.inSession delays

/-! Helper lemmas about the transport primitives. -/

theorem writeAll_eq_readAll (attempts : List UsbResult) :
    ∀ len read, writeAll len read attempts = readAll len read attempts := by
  induction attempts with
  | nil => intro len read; rfl
  | cons a rest ih =>
    intro len read
    cases a with
    | ok b =>
      by_cases h : read < len <;> simp [writeAll, readAll, h, ih]
    | error e =>
      by_cases h : read < len <;> by_cases ht : e = RusbError.timeout <;>
        simp [writeAll, readAll, h, ht, ih]

theorem readAll_ok_eq_len (len : Nat) (attempts : List UsbResult) :
    ∀ read n, attemptsBounded len read attempts = true → read ≤ len →
      readAll len read attempts = some (Except.ok n) → n = len := by
  induction attempts with
  | nil =>
    intro read n _ hle hrun
    by_cases h : read < len
    · simp [readAll, h] at hrun
    · simp [readAll, h] at hrun
      omega
  | cons a rest ih =>
    intro read n hb hle hrun
    by_cases h : read < len
    · cases a with
      | ok b =>
        simp only [readAll, if_pos h] at hrun
        simp only [attemptsBounded, if_pos h, Bool.and_eq_true, decide_eq_true_eq] at hb
        exact ih (read + b) n hb.2 (by omega) hrun
      | error e =>
        simp only [attemptsBounded, if_pos h] at hb
        by_cases ht : e = RusbError.timeout
        · simp only [readAll, if_pos h, if_pos ht] at hrun
          exact ih read n hb hle hrun
        · simp [readAll, if_pos h, ht] at hrun
    · simp only [readAll, if_neg h] at hrun
      have : read = n := by simpa using hrun
      omega

theorem readAll_complete (pre : List UsbResult) :
    ∀ len read, (∀ a ∈ pre, okOrTimeout a = true) → read + sumOk pre = len →
      readAll len read pre = some (Except.ok len) := by
  induction pre with
  | nil =>
    intro len read _ hsum
    have : read = len := by simp only [sumOk] at hsum; omega
    subst this
    simp [readAll]
  | cons a rest ih =>
    intro len read hok hsum
    have hoka : okOrTimeout a = true := hok a (List.mem_cons_self a rest)
    have hokr : ∀ x ∈ rest, okOrTimeout x = true :=
      fun x hx => hok x (List.mem_cons_of_mem a hx)
    by_cases h : read < len
    · cases a with
      | ok b =>
        simp only [readAll, if_pos h]
        exact ih len (read + b) hokr (by simp only [sumOk] at hsum; omega)
      | error e =>
        have ht : e = RusbError.timeout := by
          simpa [okOrTimeout] using hoka
        simp only [readAll, if_pos h, if_pos ht]
        exact ih len read hokr (by simp only [sumOk] at hsum; omega)
    · have : read = len := by
        have : read ≤ len := by omega
        omega
      simp [readAll, h, this]

theorem readAll_err (pre : List UsbResult) :
    ∀ len read e rest, (∀ a ∈ pre, okOrTimeout a = true) → e ≠ RusbError.timeout →
      read + sumOk pre < len →
      readAll len read (pre ++ Except.error e :: rest)
        = some (Except.error (read + sumOk pre, e)) := by
  induction pre with
  | nil =>
    intro len read e rest _ he hlt
    have h : read < len := by simp only [sumOk] at hlt; omega
    simp [readAll, h, he, sumOk]
  | cons a pre' ih =>
    intro len read e rest hok he hlt
    have hoka : okOrTimeout a = true := hok a (List.mem_cons_self a pre')
    have hokr : ∀ x ∈ pre', okOrTimeout x = true :=
      fun x hx => hok x (List.mem_cons_of_mem a hx)
    cases a with
    | ok b =>
      have h : read < len := by simp only [sumOk] at hlt; omega
      simp only [List.cons_append, readAll, if_pos h]
      have := ih len (read + b) e rest hokr he (by simp only [sumOk] at hlt ⊢; omega)
      simpa [sumOk, Nat.add_assoc] using this
    | error e' =>
      have ht : e' = RusbError.timeout := by simpa [okOrTimeout] using hoka
      have h : read < len := by simp only [sumOk] at hlt; omega
      simp only [List.cons_append, readAll, if_pos h, if_pos ht]
      have := ih len read e rest hokr he (by simp only [sumOk] at hlt ⊢; omega)
      simpa [sumOk, ht] using this

/-! Helper lemmas about the handle table. -/

theorem hmGet_insert_self (m : List (Nat × Interface)) (k : Nat) (v : Interface) :
    hmGet k (hmInsert k v m) = some v := by
  induction m with
  | nil => simp [hmGet, hmInsert]
  | cons p rest ih =>
    by_cases h : p.1 = k
    · simp [hmGet, hmInsert, h]
    · simp [hmGet, hmInsert, h, ih]

theorem hmGet_insert_ne (m : List (Nat × Interface)) (k k' : Nat) (v : Interface)
    (h : k' ≠ k) : hmGet k (hmInsert k' v m) = hmGet k m := by
  induction m with
  | nil => simp [hmGet, hmInsert, h]
  | cons p rest ih =>
    obtain ⟨k0, v0⟩ := p
    by_cases hp : k0 = k'
    · subst hp
      simp [hmGet, hmInsert, h]
    · simp only [hmInsert, if_neg hp]
      by_cases hk : k0 = k
      · subst hk
        simp [hmGet]
      · simp [hmGet, hk, ih]

theorem hmGet_remove_ne (m : List (Nat × Interface)) (h k : Nat) (hk : k ≠ h) :
    hmGet k (hmRemove h m) = hmGet k m := by
  induction m with
  | nil => simp [hmGet, hmRemove]
  | cons p rest ih =>
    obtain ⟨k0, v0⟩ := p
    by_cases hp : k0 = h
    · subst hp
      have hne : k0 ≠ k := fun hc => hk hc.symm
      simp [hmGet, hmRemove, hne]
    · by_cases hk2 : k0 = k
      · subst hk2
        simp [hmGet, hmRemove, hp]
      · simp [hmGet, hmRemove, hp, hk2, ih]

theorem hmGet_eq_none_of_not_mem (m : List (Nat × Interface)) (k : Nat)
    (h : k ∉ m.map Prod.fst) : hmGet k m = none := by
  induction m with
  | nil => rfl
  | cons p rest ih =>
    obtain ⟨k0, v0⟩ := p
    simp only [List.map_cons, List.mem_cons, not_or] at h
    have h1 : k0 ≠ k := fun hc => h.1 hc.symm
    simp only [hmGet, if_neg h1]
    exact ih h.2

theorem hmGet_remove_self (m : List (Nat × Interface)) (h : Nat)
    (hnd : (m.map Prod.fst).Nodup) : hmGet h (hmRemove h m) = none := by
  induction m with
  | nil => rfl
  | cons p rest ih =>
    obtain ⟨k0, v0⟩ := p
    simp only [List.map_cons, List.nodup_cons] at hnd
    by_cases hp : k0 = h
    · subst hp
      simp only [hmRemove, if_pos rfl]
      exact hmGet_eq_none_of_not_mem rest k0 hnd.1
    · simp only [hmRemove, if_neg hp, hmGet, if_neg hp]
      exact ih hnd.2

theorem hmRemove_absent (m : List (Nat × Interface)) (h : Nat)
    (habs : hmGet h m = none) : hmRemove h m = m := by
  induction m with
  | nil => rfl
  | cons p rest ih =>
    by_cases hp : p.1 = h
    · simp [hmGet, hp] at habs
    · simp only [hmGet, if_neg hp] at habs
      simp [hmRemove, hp, ih habs]

theorem hmGet_insert_isSome (m : List (Nat × Interface)) (k k' : Nat) (v : Interface)
    (h : (hmGet k m).isSome = true) : (hmGet k (hmInsert k' v m)).isSome = true := by
  by_cases hk : k' = k
  · subst hk; simp [hmGet_insert_self]
  · rwa [hmGet_insert_ne m k k' v hk]

/-! Helper lemmas about the endpoint scan of `try_connect`. -/

theorem firstBulkAddr_cons (d : Direction) (e : EndpointDesc) (es : List EndpointDesc) :
    firstBulkAddr d (e :: es) =
      if e.transfer_type = TransferType.bulk ∧ e.direction = d then some e.address
      else firstBulkAddr d es := by
  by_cases h : e.transfer_type = TransferType.bulk ∧ e.direction = d <;>
    simp [firstBulkAddr, List.find?, h]

theorem scanStep_eq (ein eout : Option Nat) (e : EndpointDesc) :
    scanStep ein eout e =
      ((if e.transfer_type = TransferType.bulk ∧ e.direction = Direction.dIn ∧ ein = none
          then some e.address else ein),
       (if e.transfer_type = TransferType.bulk ∧ e.direction = Direction.dOut ∧ eout = none
          then some e.address else eout)) := by
  unfold scanStep
  by_cases hb : e.transfer_type = TransferType.bulk
  · cases hd : e.direction <;> cases ein <;> cases eout <;> simp [hb, hd]
  · simp [hb]

theorem track_lift (ein ein' : Option Nat) (d : Direction) (e : EndpointDesc)
    (es : List EndpointDesc) (a : Nat)
    (heq : ein' = if e.transfer_type = TransferType.bulk ∧ e.direction = d ∧ ein = none
        then some e.address else ein)
    (h : ein' = some a ∨ (ein' = none ∧ firstBulkAddr d es = some a)) :
    ein = some a ∨ (ein = none ∧ firstBulkAddr d (e :: es) = some a) := by
  by_cases hc : e.transfer_type = TransferType.bulk ∧ e.direction = d ∧ ein = none
  · rw [if_pos hc] at heq
    rcases h with h | ⟨hn, _⟩
    · right
      refine ⟨hc.2.2, ?_⟩
      rw [firstBulkAddr_cons, if_pos ⟨hc.1, hc.2.1⟩]
      rw [heq] at h
      exact h
    · rw [heq] at hn
      cases hn
  · rw [if_neg hc] at heq
    rcases h with h | ⟨hn, hf⟩
    · left
      exact heq ▸ h
    · right
      have hein : ein = none := heq ▸ hn
      refine ⟨hein, ?_⟩
      rw [firstBulkAddr_cons, if_neg (fun hcc => hc ⟨hcc.1, hcc.2, hein⟩)]
      exact hf

theorem scanEndpoints_ok_first :
    ∀ (eps : List EndpointDesc) (ein eout : Option Nat) (a b : Nat),
      scanEndpoints ein eout eps = Except.ok (a, b) →
      (ein = some a ∨ (ein = none ∧ firstBulkAddr Direction.dIn eps = some a))
      ∧ (eout = some b ∨ (eout = none ∧ firstBulkAddr Direction.dOut eps = some b)) := by
  intro eps
  induction eps with
  | nil =>
    intro ein eout a b h
    simp [scanEndpoints] at h
  | cons e es ih =>
    intro ein eout a b h
    rcases hstep : scanStep ein eout e with ⟨ein', eout'⟩
    have hs := hstep
    rw [scanStep_eq] at hs
    injection hs with hs1 hs2
    simp only [scanEndpoints] at h
    rw [hstep] at h
    cases ein' with
    | some x =>
      cases eout' with
      | some y =>
        simp only [] at h
        have hax : x = a ∧ y = b := by
          have := h
          simp at this
          exact ⟨this.1, this.2⟩
        constructor
        · exact track_lift ein (some x) Direction.dIn e es a hs1.symm (Or.inl (by rw [hax.1]))
        · exact track_lift eout (some y) Direction.dOut e es b hs2.symm (Or.inl (by rw [hax.2]))
      | none =>
        have hrec := ih (some x) none a b h
        exact ⟨track_lift ein (some x) Direction.dIn e es a hs1.symm hrec.1,
          track_lift eout none Direction.dOut e es b hs2.symm hrec.2⟩
    | none =>
      have hrec := ih none eout' a b h
      exact ⟨track_lift ein none Direction.dIn e es a hs1.symm hrec.1,
        track_lift eout eout' Direction.dOut e es b hs2.symm hrec.2⟩

theorem scanEndpoints_no_in :
    ∀ (eps : List EndpointDesc) (eout : Option Nat),
      firstBulkAddr Direction.dIn eps = none →
      scanEndpoints none eout eps = Except.error SwitchConnectionError.noInEndpoint := by
  intro eps
  induction eps with
  | nil =>
    intro eout _
    simp [scanEndpoints]
  | cons e es ih =>
    intro eout hf
    rw [firstBulkAddr_cons] at hf
    by_cases hc : e.transfer_type = TransferType.bulk ∧ e.direction = Direction.dIn
    · rw [if_pos hc] at hf
      cases hf
    · rw [if_neg hc] at hf
      rcases hstep : scanStep none eout e with ⟨ein', eout'⟩
      have hs := hstep
      rw [scanStep_eq] at hs
      injection hs with hs1 hs2
      have hein' : ein' = none := by
        rw [if_neg (fun hcc => hc ⟨hcc.1, hcc.2.1⟩)] at hs1
        exact hs1.symm
      subst hein'
      simp only [scanEndpoints]
      rw [hstep]
      cases eout' with
      | some y => exact ih (some y) hf
      | none => exact ih none hf

theorem scanEndpoints_no_out :
    ∀ (eps : List EndpointDesc) (ein : Option Nat),
      firstBulkAddr Direction.dOut eps = none →
      (ein ≠ none ∨ firstBulkAddr Direction.dIn eps ≠ none) →
      scanEndpoints ein none eps = Except.error SwitchConnectionError.noOutEndpoint := by
  intro eps
  induction eps with
  | nil =>
    intro ein _ hdisj
    have : ein ≠ none := by
      rcases hdisj with h | h
      · exact h
      · exact absurd rfl h
    cases ein with
    | none => exact absurd rfl this
    | some x => simp [scanEndpoints]
  | cons e es ih =>
    intro ein hf hdisj
    rw [firstBulkAddr_cons] at hf
    by_cases hc : e.transfer_type = TransferType.bulk ∧ e.direction = Direction.dOut
    · rw [if_pos hc] at hf
      cases hf
    · rw [if_neg hc] at hf
      rcases hstep : scanStep ein none e with ⟨ein', eout'⟩
      have hs := hstep
      rw [scanStep_eq] at hs
      injection hs with hs1 hs2
      have heout' : eout' = none := by
        rw [if_neg (fun hcc => hc ⟨hcc.1, hcc.2.1⟩)] at hs2
        exact hs2.symm
      subst heout'
      have hdisj' : ein' ≠ none ∨ firstBulkAddr Direction.dIn es ≠ none := by
        rcases hdisj with h | h
        · left
          intro hcon
          apply h
          by_cases hcc : e.transfer_type = TransferType.bulk ∧ e.direction = Direction.dIn ∧ ein = none
          · exact hcc.2.2
          · rw [if_neg hcc] at hs1
            rw [hs1]
            exact hcon
        · rw [firstBulkAddr_cons] at h
          by_cases hcc : e.transfer_type = TransferType.bulk ∧ e.direction = Direction.dIn
          · left
            by_cases hnone : ein = none
            · rw [if_pos ⟨hcc.1, hcc.2, hnone⟩] at hs1
              rw [← hs1]
              exact fun hcon => Option.noConfusion hcon
            · rw [if_neg (fun h3 => hnone h3.2.2)] at hs1
              rw [← hs1]
              exact hnone
          · rw [if_neg hcc] at h
            right
            exact h
      simp only [scanEndpoints]
      rw [hstep]
      cases ein' with
      | some x => exact ih (some x) hf hdisj'
      | none => exact ih none hf hdisj'

/-! Helper lemmas about the framing codec. -/

theorem u32FromLe_toLe (n : Nat) :
    u32FromLeBytes (n % 256) (n / 256 % 256) (n / 65536 % 256) (n / 16777216 % 256)
      = n % 4294967296 := by
  unfold u32FromLeBytes
  omega

theorem u32FromBe_toBe (n : Nat) :
    u32FromBeBytes (n / 16777216 % 256) (n / 65536 % 256) (n / 256 % 256) (n % 256)
      = n % 4294967296 := by
  unfold u32FromBeBytes
  omega

/-! Claim theorems. -/

/-- C1 counterexample: the claim asserts that a non-timeout I/O error
during a frame read, while Connected, sends the dispatcher back to
Disconnected, releases the Connection, waits five seconds and re-attempts
acquisition (fatal to the session, not to the process).  On the concrete
script below — one successful connection whose first frame read fails with
a non-timeout I/O error, followed by a further acquisition opportunity —
the process instead panics (the `unwrap` at main.rs:37/40) with zero
five-second delays performed, and the later event is never reached: the
error is fatal to the process. -/
theorem c1_counterexample :
    runProcess (fun _ => none) (fun _ => 0)
      [SessionEvent.connectOk [FrameEvent.readErr], SessionEvent.connectErr] 0
      = ProcOutcome.panicked 0
    ∧ runProcess (fun _ => none) (fun _ => 0)
      [SessionEvent.connectOk [FrameEvent.readErr], SessionEvent.connectErr] 0
      ≠ ProcOutcome.disconnected 1 := by
  exact ⟨rfl, by decide⟩

/-- C1 (amended): while Connected, any non-timeout I/O error during a
frame read or write, or a malformed/undecodable frame payload, makes the
process panic (the `unwrap`s in `command` and `result`): the inner loop
and the whole process terminate, with no further five-second delay and no
re-attempted Device Acquisition.  The fixed five-second delay applies only
to failures of `try_connect` itself. -/
theorem c1_amended_error_kills_process (poll : Interface → Option Move)
    (block : Interface → Move) (st st' : SessionState) (c : Command) (r : Response)
    (fs frames : List FrameEvent) (evs : List SessionEvent) (d : Nat) :
    runSession poll block st (FrameEvent.readErr :: fs) = (LoopResult.panicked, [])
    ∧ runSession poll block st (FrameEvent.malformed :: fs) = (LoopResult.panicked, [])
    ∧ (execCommand poll block st c = some (st', some r) →
        runSession poll block st (FrameEvent.req c false :: fs) = (LoopResult.panicked, []))
    ∧ ((runSession poll block initState frames).1 = LoopResult.panicked →
        runProcess poll block (SessionEvent.connectOk frames :: evs) d
          = ProcOutcome.panicked d) := by
  refine ⟨rfl, rfl, ?_, ?_⟩
  · intro hex
    simp [runSession, hex]
  · intro hp
    rcases hrs : runSession poll block initState frames with ⟨res, outs⟩
    rw [hrs] at hp
    simp only [runProcess]
    rw [hrs]
    cases res with
    | panicked => rfl
    | running s => exact LoopResult.noConfusion hp

/-- C1 witness: a failed response write after `DefaultOptions`, and a
malformed payload inside a session, each abort the process with the delay
count unchanged. -/
theorem c1_amended_witness :
    runSession (fun _ => none) (fun _ => 0) initState
      [FrameEvent.req Command.defaultOptions false] = (LoopResult.panicked, [])
    ∧ runProcess (fun _ => none) (fun _ => 0)
        [SessionEvent.connectOk [FrameEvent.malformed]] 3 = ProcOutcome.panicked 3 := by
  have h := c1_amended_error_kills_process (fun _ => none) (fun _ => 0) initState initState
    Command.defaultOptions (Response.optionsVal 0) [] [FrameEvent.malformed] [] 3
  exact ⟨h.2.2.1 rfl, h.2.2.2 rfl⟩

/-- C2: over a buffer of size `len`, `read_all` (and symmetrically
`write_all`) retries the single-attempt transfer, absorbing timeouts as
zero bytes; under the physical bound that each attempt transfers at most
the missing bytes, success returns exactly `len`; a script of
ok/timeout attempts totalling `len` bytes succeeds; and a non-timeout
error aborts at once, reported with the cumulative byte count transferred
before it. -/
theorem c2_read_write_all_retry (len : Nat) (attempts pre rest : List UsbResult)
    (e : RusbError) (n : Nat) :
    (attemptsBounded len 0 attempts = true →
      readAll len 0 attempts = some (Except.ok n) → n = len)
    ∧ (attemptsBounded len 0 attempts = true →
      writeAll len 0 attempts = some (Except.ok n) → n = len)
    ∧ ((∀ a ∈ pre, okOrTimeout a = true) → sumOk pre = len →
        readAll len 0 pre = some (Except.ok len)
        ∧ writeAll len 0 pre = some (Except.ok len))
    ∧ ((∀ a ∈ pre, okOrTimeout a = true) → e ≠ RusbError.timeout → sumOk pre < len →
        readAll len 0 (pre ++ Except.error e :: rest) = some (Except.error (sumOk pre, e))
        ∧ writeAll len 0 (pre ++ Except.error e :: rest)
            = some (Except.error (sumOk pre, e))) := by
  refine ⟨?_, ?_, ?_, ?_⟩
  · exact fun hb hr => readAll_ok_eq_len len attempts 0 n hb (Nat.zero_le len) hr
  · intro hb hr
    rw [writeAll_eq_readAll] at hr
    exact readAll_ok_eq_len len attempts 0 n hb (Nat.zero_le len) hr
  · intro hok hsum
    refine ⟨readAll_complete pre len 0 hok (by omega), ?_⟩
    rw [writeAll_eq_readAll]
    exact readAll_complete pre len 0 hok (by omega)
  · intro hok he hlt
    refine ⟨?_, ?_⟩
    · have h := readAll_err pre len 0 e rest hok he (by omega)
      simpa using h
    · rw [writeAll_eq_readAll]
      have h := readAll_err pre len 0 e rest hok he (by omega)
      simpa using h

/-- C2 witness: a buffer of three bytes filled by 2+timeout+1 succeeds
with exactly three bytes; a `NoDevice` error after one byte aborts both
loops at once with cumulative count 1. -/
theorem c2_witness :
    readAll 3 0 [Except.ok 2, Except.error RusbError.timeout, Except.ok 1]
      = some (Except.ok 3)
    ∧ writeAll 3 0 [Except.ok 2, Except.error RusbError.timeout, Except.ok 1]
      = some (Except.ok 3)
    ∧ readAll 3 0 ([Except.ok 1, Except.error RusbError.timeout]
        ++ Except.error RusbError.noDevice :: [Except.ok 5])
      = some (Except.error (1, RusbError.noDevice))
    ∧ writeAll 3 0 ([Except.ok 1, Except.error RusbError.timeout]
        ++ Except.error RusbError.noDevice :: [Except.ok 5])
      = some (Except.error (1, RusbError.noDevice)) := by
  have h1 := (c2_read_write_all_retry 3 []
    [Except.ok 2, Except.error RusbError.timeout, Except.ok 1] [] RusbError.noDevice 0).2.2.1
    (by decide) (by decide)
  have h2 := (c2_read_write_all_retry 3 []
    [Except.ok 1, Except.error RusbError.timeout] [Except.ok 5] RusbError.noDevice 0).2.2.2
    (by decide) (by decide) (by decide)
  exact ⟨h1.1, h1.2, h2.1, h2.2⟩

/-- C3: every handle-referencing command other than `Drop`
(`RequestNextMove`, `PollNextMove`, `BlockNextMove`, `AddNextPiece`)
whose handle is absent from the handle table fails hard: the `unwrap` on
the table lookup aborts execution (modelled by `none` / `panicked`), and
no "handle not found" response frame is ever written. -/
theorem c3_absent_handle_fails_hard (poll : Interface → Option Move)
    (block : Interface → Move) (st : SessionState) (h i p : Nat) (w : Bool)
    (fs : List FrameEvent) (habs : hmGet h st.handles = none) :
    execCommand poll block st (Command.requestNextMove h i) = none
    ∧ execCommand poll block st (Command.pollNextMove h) = none
    ∧ execCommand poll block st (Command.blockNextMove h) = none
    ∧ execCommand poll block st (Command.addNextPiece h p) = none
    ∧ runSession poll block st (FrameEvent.req (Command.pollNextMove h) w :: fs)
        = (LoopResult.panicked, []) := by
  refine ⟨?_, ?_, ?_, ?_, ?_⟩ <;> simp [execCommand, habs, runSession]

/-- C3 witness: polling handle 1 on a fresh session panics and emits no
frame. -/
theorem c3_witness :
    execCommand (fun _ => none) (fun _ => 0) initState (Command.pollNextMove 1) = none
    ∧ runSession (fun _ => none) (fun _ => 0) initState
        [FrameEvent.req (Command.pollNextMove 1) true] = (LoopResult.panicked, []) := by
  have h := c3_absent_handle_fails_hard (fun _ => none) (fun _ => 0) initState 1 0 0 true [] rfl
  exact ⟨h.2.1, h.2.2.2.2⟩

/-- C4: the framing codec is direction-asymmetric.  Reading a request
decodes the four-byte prefix little-endian and consumes exactly that many
payload bytes; writing a response emits a big-endian four-byte prefix
equal to the payload length followed by the payload; the two byte orders
are mutually reversed. -/
theorem c4_framing_direction_asymmetry (payload extra : List Nat)
    (b0 b1 b2 b3 : Nat) (p r stream : List Nat)
    (hlen : payload.length < 4294967296) :
    readFrame (u32ToLeBytes payload.length ++ payload ++ extra) = some (payload, extra)
    ∧ (readFrame (b0 :: b1 :: b2 :: b3 :: stream) = some (p, r) →
        p.length = u32FromLeBytes b0 b1 b2 b3 ∧ p ++ r = stream)
    ∧ writeFrame payload = u32ToBeBytes payload.length ++ payload
    ∧ u32FromBeBytes (payload.length / 16777216 % 256) (payload.length / 65536 % 256)
        (payload.length / 256 % 256) (payload.length % 256) = payload.length
    ∧ u32ToLeBytes payload.length = (u32ToBeBytes payload.length).reverse := by
  refine ⟨?_, ?_, ?_, ?_, ?_⟩
  · have heq : u32ToLeBytes payload.length ++ payload ++ extra
        = payload.length % 256 :: (payload.length / 256 % 256)
          :: (payload.length / 65536 % 256) :: (payload.length / 16777216 % 256)
          :: (payload ++ extra) := by
      simp [u32ToLeBytes]
    rw [heq]
    simp only [readFrame]
    rw [u32FromLe_toLe, Nat.mod_eq_of_lt hlen]
    rw [if_pos (by simp)]
    rw [List.take_left, List.drop_left]
  · intro hrd
    simp only [readFrame] at hrd
    by_cases hle : u32FromLeBytes b0 b1 b2 b3 ≤ stream.length
    · rw [if_pos hle] at hrd
      injection hrd with hrd'
      injection hrd' with h1 h2
      constructor
      · rw [← h1]
        exact List.length_take_of_le hle
      · rw [← h1, ← h2]
        exact List.take_append_drop _ stream
    · rw [if_neg hle] at hrd
      cases hrd
  · simp [writeFrame, Nat.mod_eq_of_lt hlen]
  · rw [u32FromBe_toBe, Nat.mod_eq_of_lt hlen]
  · simp [u32ToLeBytes, u32ToBeBytes]

/-- C4 witness: a two-byte payload round-trips through the request frame
reader, and the response frame for it carries a big-endian prefix. -/
theorem c4_witness :
    readFrame (u32ToLeBytes 2 ++ [10, 20] ++ [99]) = some ([10, 20], [99])
    ∧ writeFrame [10, 20] = u32ToBeBytes 2 ++ [10, 20] := by
  have h := c4_framing_direction_asymmetry [10, 20] [99] 0 0 0 0 [] [] [] (by decide)
  exact ⟨h.1, h.2.2.1⟩

/-- C5: the endpoint scan of `try_connect` records the first bulk endpoint
seen in each direction; as soon as both directions are found it returns
immediately (the result does not depend on the unscanned tail); if the
scan completes without a bulk-in endpoint it fails with `NoInEndpoint`,
and with a bulk-in but no bulk-out endpoint it fails with
`NoOutEndpoint`. -/
theorem c5_endpoint_scan (eps rest : List EndpointDesc) (ein eout : Option Nat)
    (e : EndpointDesc) (a b : Nat) :
    (scanEndpoints none none eps = Except.ok (a, b) →
      firstBulkAddr Direction.dIn eps = some a
      ∧ firstBulkAddr Direction.dOut eps = some b)
    ∧ (firstBulkAddr Direction.dIn eps = none →
        scanEndpoints none none eps = Except.error SwitchConnectionError.noInEndpoint)
    ∧ (firstBulkAddr Direction.dIn eps ≠ none → firstBulkAddr Direction.dOut eps = none →
        scanEndpoints none none eps = Except.error SwitchConnectionError.noOutEndpoint)
    ∧ (scanStep ein eout e = (some a, some b) →
        scanEndpoints ein eout (e :: rest) = Except.ok (a, b)) := by
  refine ⟨?_, ?_, ?_, ?_⟩
  · intro h
    obtain ⟨hin, hout⟩ := scanEndpoints_ok_first eps none none a b h
    rcases hin with hin | ⟨_, hin⟩
    · cases hin
    rcases hout with hout | ⟨_, hout⟩
    · cases hout
    exact ⟨hin, hout⟩
  · exact fun h => scanEndpoints_no_in eps none h
  · exact fun h1 h2 => scanEndpoints_no_out eps none h2 (Or.inr h1)
  · intro h
    simp only [scanEndpoints]
    rw [h]

/-- C5 witness: a descriptor list whose first bulk-in endpoint is 129 and
first bulk-out endpoint is 1 scans to exactly that pair, and a list with
no bulk-in endpoint fails with `NoInEndpoint`. -/
theorem c5_witness :
    (firstBulkAddr Direction.dIn
        [EndpointDesc.mk TransferType.bulk Direction.dIn 129,
         EndpointDesc.mk TransferType.bulk Direction.dOut 1] = some 129
      ∧ firstBulkAddr Direction.dOut
        [EndpointDesc.mk TransferType.bulk Direction.dIn 129,
         EndpointDesc.mk TransferType.bulk Direction.dOut 1] = some 1)
    ∧ scanEndpoints none none [EndpointDesc.mk TransferType.interrupt Direction.dIn 130]
        = Except.error SwitchConnectionError.noInEndpoint := by
  constructor
  · exact (c5_endpoint_scan
      [EndpointDesc.mk TransferType.bulk Direction.dIn 129,
       EndpointDesc.mk TransferType.bulk Direction.dOut 1] [] none none
      (EndpointDesc.mk TransferType.bulk Direction.dIn 0) 129 1).1 (by decide)
  · exact (c5_endpoint_scan
      [EndpointDesc.mk TransferType.interrupt Direction.dIn 130] [] none none
      (EndpointDesc.mk TransferType.bulk Direction.dIn 0) 0 0).2.1 (by decide)

/-- C6: the handle counter starts at zero for every new connection and is
incremented (wrapping on u32 overflow) before use as the new handle's key;
the Launch response is exactly the key under which the new engine was
inserted; on a fresh session two launches yield handles 1 then 2; at
counter 4294967295 the next launch wraps to handle 0. -/
theorem c6_handle_counter (poll : Interface → Option Move) (block : Interface → Move)
    (st : SessionState) (o e o2 e2 : CcOptions) :
    execCommand poll block st (Command.launch o e)
      = some ({ handle_counter := (st.handle_counter + 1) % 4294967296,
                handles := hmInsert ((st.handle_counter + 1) % 4294967296) ⟨o, e⟩ st.handles },
              some (Response.handle ((st.handle_counter + 1) % 4294967296)))
    ∧ hmGet ((st.handle_counter + 1) % 4294967296)
        (hmInsert ((st.handle_counter + 1) % 4294967296) ⟨o, e⟩ st.handles) = some ⟨o, e⟩
    ∧ (runSession poll block initState
        [FrameEvent.req (Command.launch o e) true,
         FrameEvent.req (Command.launch o2 e2) true]).2
        = [Response.handle 1, Response.handle 2]
    ∧ execCommand poll block { handle_counter := 4294967295, handles := [] }
        (Command.launch o e)
        = some ({ handle_counter := 0, handles := [(0, ⟨o, e⟩)] },
                some (Response.handle 0)) := by
  exact ⟨rfl, hmGet_insert_self _ _ _, rfl, rfl⟩

/-- C7: `Drop` removes the referenced handle from the table when present,
is a no-op when absent, never fails, and writes no response frame: the
dispatcher proceeds directly to the next request frame. -/
theorem c7_drop_semantics (poll : Interface → Option Move) (block : Interface → Move)
    (st : SessionState) (h : Nat) (w : Bool) (fs : List FrameEvent)
    (hnd : (st.handles.map Prod.fst).Nodup) :
    execCommand poll block st (Command.drop h)
      = some ({ st with handles := hmRemove h st.handles }, none)
    ∧ hmGet h (hmRemove h st.handles) = none
    ∧ (hmGet h st.handles = none → hmRemove h st.handles = st.handles)
    ∧ runSession poll block st (FrameEvent.req (Command.drop h) w :: fs)
        = runSession poll block { st with handles := hmRemove h st.handles } fs := by
  refine ⟨rfl, hmGet_remove_self _ _ hnd, hmRemove_absent _ _, ?_⟩
  simp [runSession, execCommand]

/-- C7 witness: dropping handle 1 from a table holding it empties the
table and never fails. -/
theorem c7_witness :
    execCommand (fun _ => none) (fun _ => 0)
      (SessionState.mk 1 [(1, Interface.mk 0 0)]) (Command.drop 1)
      = some (SessionState.mk 1 [], none)
    ∧ hmGet 1 (hmRemove 1 [(1, Interface.mk 0 0)]) = none := by
  have h := c7_drop_semantics (fun _ => none) (fun _ => 0)
    (SessionState.mk 1 [(1, Interface.mk 0 0)]) 1 true [] (by decide)
  exact ⟨h.1, h.2.1⟩

/-- C8: if every device in the enumeration has a readable descriptor and
none carries vendor 0x057E / product 0x3000, `try_connect` returns
`SwitchNotFound` — no other device is opened and no error is raised for
one. -/
theorem c8_no_matching_device (devices : List UsbDevice)
    (hnm : ∀ d ∈ devices, descOkNonMatching d = true) :
    tryConnect devices = Except.error SwitchConnectionError.switchNotFound := by
  induction devices with
  | nil => rfl
  | cons d ds ih =>
    have hd := hnm d (List.mem_cons_self d ds)
    have hds : ∀ x ∈ ds, descOkNonMatching x = true :=
      fun x hx => hnm x (List.mem_cons_of_mem d hx)
    cases hdesc : d.device_descriptor with
    | error e => simp [descOkNonMatching, hdesc] at hd
    | ok dd =>
      have hne : ¬(dd.vendor_id = SWITCH_VENDOR_ID ∧ dd.product_id = SWITCH_PRODUCT_ID) := by
        simp only [descOkNonMatching, hdesc, Bool.not_eq_true', Bool.and_eq_false_iff,
          beq_eq_false_iff_ne, ne_eq] at hd
        intro hcc
        rcases hd with hd | hd
        · exact hd hcc.1
        · exact hd hcc.2
      simp only [tryConnect, hdesc]
      rw [if_neg hne]
      exact ih hds

/-- C8 witness: an enumeration holding one non-matching device (whose
`open` would even fail) yields `SwitchNotFound`. -/
theorem c8_witness :
    tryConnect [UsbDevice.mk (Except.ok (DeviceDesc.mk 0x1234 0x5678))
        (Except.error RusbError.noDevice)]
      = Except.error SwitchConnectionError.switchNotFound :=
  c8_no_matching_device _ (by decide)

/-- C9: on a zero-length buffer, `read_all` and `write_all` succeed with
zero bytes regardless of what the bus would do — in particular with no
underlying transfer available at all — so they cannot fail on an empty
buffer. -/
theorem c9_zero_length_buffer (attempts : List UsbResult) :
    readAll 0 0 attempts = some (Except.ok 0)
    ∧ writeAll 0 0 attempts = some (Except.ok 0)
    ∧ readAll 0 0 [] = some (Except.ok 0)
    ∧ writeAll 0 0 [] = some (Except.ok 0) := by
  refine ⟨?_, ?_, rfl, rfl⟩
  · cases attempts <;> simp [readAll]
  · cases attempts <;> simp [writeAll]

/-- C10: `Drop h` leaves the counter unchanged, leaves every entry with a
key other than `h` unchanged, removes exactly `h`; and no command other
than `Drop` ever makes a present key absent. -/
theorem c10_drop_isolation (poll : Interface → Option Move) (block : Interface → Move)
    (st st' : SessionState) (h k : Nat) (c : Command) (r : Option Response) :
    (execCommand poll block st (Command.drop h) = some (st', r) →
      st'.handle_counter = st.handle_counter ∧ r = none
      ∧ (k ≠ h → hmGet k st'.handles = hmGet k st.handles)
      ∧ ((st.handles.map Prod.fst).Nodup → hmGet h st'.handles = none))
    ∧ ((∀ h2, c ≠ Command.drop h2) → execCommand poll block st c = some (st', r) →
        ∀ k2, (hmGet k2 st.handles).isSome = true →
          (hmGet k2 st'.handles).isSome = true) := by
  constructor
  · intro hex
    simp only [execCommand, Option.some.injEq, Prod.mk.injEq] at hex
    obtain ⟨h1, h2⟩ := hex
    rw [← h1]
    exact ⟨rfl, h2.symm, fun hk => hmGet_remove_ne _ _ _ hk,
      fun hnd => hmGet_remove_self _ _ hnd⟩
  · intro hnotdrop hex k2 hs
    cases c with
    | launch o e =>
      simp only [execCommand, Option.some.injEq, Prod.mk.injEq] at hex
      obtain ⟨h1, _⟩ := hex
      rw [← h1]
      exact hmGet_insert_isSome _ _ _ _ hs
    | drop h2 => exact absurd rfl (hnotdrop h2)
    | requestNextMove h2 i =>
      simp only [execCommand] at hex
      cases hget : hmGet h2 st.handles with
      | none => rw [hget] at hex; cases hex
      | some v =>
        rw [hget] at hex
        simp only [Option.map_some', Option.some.injEq, Prod.mk.injEq] at hex
        rw [← hex.1]
        exact hs
    | pollNextMove h2 =>
      simp only [execCommand] at hex
      cases hget : hmGet h2 st.handles with
      | none => rw [hget] at hex; cases hex
      | some v =>
        rw [hget] at hex
        simp only [Option.map_some', Option.some.injEq, Prod.mk.injEq] at hex
        rw [← hex.1]
        exact hs
    | blockNextMove h2 =>
      simp only [execCommand] at hex
      cases hget : hmGet h2 st.handles with
      | none => rw [hget] at hex; cases hex
      | some v =>
        rw [hget] at hex
        simp only [Option.map_some', Option.some.injEq, Prod.mk.injEq] at hex
        rw [← hex.1]
        exact hs
    | addNextPiece h2 p =>
      simp only [execCommand] at hex
      cases hget : hmGet h2 st.handles with
      | none => rw [hget] at hex; cases hex
      | some v =>
        rw [hget] at hex
        simp only [Option.map_some', Option.some.injEq, Prod.mk.injEq] at hex
        rw [← hex.1]
        exact hs
    | defaultOptions =>
      simp only [execCommand, Option.some.injEq, Prod.mk.injEq] at hex
      rw [← hex.1]
      exact hs
    | defaultEvaluator =>
      simp only [execCommand, Option.some.injEq, Prod.mk.injEq] at hex
      rw [← hex.1]
      exact hs

/-- C10 witness: dropping handle 1 from a two-entry table preserves the
entry keyed 2 and the counter, removes key 1, while `DefaultOptions`
preserves the presence of key 2. -/
theorem c10_witness :
    hmGet 2 (hmRemove 1 [(1, Interface.mk 0 0), (2, Interface.mk 3 4)])
      = hmGet 2 [(1, Interface.mk 0 0), (2, Interface.mk 3 4)]
    ∧ hmGet 1 (hmRemove 1 [(1, Interface.mk 0 0), (2, Interface.mk 3 4)]) = none
    ∧ (hmGet 2 [(1, Interface.mk 0 0), (2, Interface.mk 3 4)]).isSome = true := by
  have h1 := (c10_drop_isolation (fun _ => none) (fun _ => 0)
    (SessionState.mk 5 [(1, Interface.mk 0 0), (2, Interface.mk 3 4)])
    (SessionState.mk 5 (hmRemove 1 [(1, Interface.mk 0 0), (2, Interface.mk 3 4)]))
    1 2 Command.defaultOptions none).1 rfl
  have h2 := (c10_drop_isolation (fun _ => none) (fun _ => 0)
    (SessionState.mk 5 [(1, Interface.mk 0 0), (2, Interface.mk 3 4)])
    (SessionState.mk 5 [(1, Interface.mk 0 0), (2, Interface.mk 3 4)])
    1 2 Command.defaultOptions (some (Response.optionsVal 0))).2
    (fun _ hc => Command.noConfusion hc) rfl 2 (by decide)
  exact ⟨h1.2.2.1 (by decide), h1.2.2.2 (by decide), h2⟩
